import Mathlib

/-!
# Verification of the SudokuSolver board module

Shallow embedding of `src/sudokuBoard.c` (and the `isCompleteBoard` query that
the repository declares and calls but whose definition is not among the
sources).  A C `Cell**` is modelled as `Option Board` (`none` = NULL pointer);
a present board is a total function `Fin 9 → Fin 9 → Cell`, matching the 9×9
grid the C code allocates.  C `int` parameters are modelled as `Int`.
Functions that mutate through a pointer are modelled as returning the new
board; functions that print to `stderr` and return a sentinel are modelled by
the returned value alone.
-/

/-- `BOARDSIZE` from `sudokuBoard.c`. -/
def BOARDSIZE : Nat := 9

/-- The C `Cell` struct: the current value, and whether it was given as a clue. -/
structure Cell where
  value : Int
  clue : Bool
deriving DecidableEq, Repr

/-- A present (non-NULL) 9×9 board of cells, addressed `[row][col]`. -/
def Board : Type := Fin 9 → Fin 9 → Cell

/-- The cell produced for every position by `initBoard`: `value = 0`, `clue = false`. -/
def initCell : Cell := { value := 0, clue := false }

/-- `initBoard` (sudokuBoard.c lines 63–85), on its successful allocation path:
every one of the 81 cells is set to `value = 0`, `clue = false`.  (The
allocation-failure NULL returns are not modelled.) -/
def initBoard : Board := fun _ _ => initCell

/-- Row/column access used inside the legality loops.  Every access the C code
performs is in range, so the `% 9` reduction is inert there; it only serves to
make the helper total. -/
def cellAt (b : Board) (r c : Nat) : Cell :=
  b ⟨r % 9, Nat.mod_lt r (by decide)⟩ ⟨c % 9, Nat.mod_lt c (by decide)⟩

/-- `getCell` (sudokuBoard.c lines 142–152): NULL when a coordinate is outside
`[0,9)` or the board is NULL, otherwise the cell at `[row][col]`. -/
def getCell (row col : Int) (board : Option Board) : Option Cell :=
  match board with
  | none => none
  | some b =>
    if row < 0 ∨ 9 ≤ row ∨ col < 0 ∨ 9 ≤ col then none
    else some (cellAt b row.toNat col.toNat)

/-- `setCellVal` (sudokuBoard.c lines 159–174): does nothing when the board is
NULL, a coordinate is outside `[0,9)`, or the value is outside `[1,9]`;
otherwise overwrites the cell's `value` field only (the `clue` field and all
other cells are untouched). -/
def setCellVal (board : Option Board) (row col val : Int) : Option Board :=
  match board with
  | none => none
  | some b =>
    if row < 0 ∨ 9 ≤ row ∨ col < 0 ∨ 9 ≤ col ∨ val < 1 ∨ 9 < val then some b
    else
      some (fun i j =>
        if i.val = row.toNat ∧ j.val = col.toNat then
          { cellAt b row.toNat col.toNat with value := val }
        else b i j)

/-- `isLegalRow` (sudokuBoard.c lines 268–294): false on NULL board or row out
of `[0,9)`; otherwise the pairwise scan `i`, then `col` from `i+1`, skipping
cells valued 0 and failing on an equal pair. -/
def isLegalRow (board : Option Board) (row : Int) : Bool :=
  match board with
  | none => false
  | some b =>
    if row < 0 ∨ 9 ≤ row then false
    else
      (List.range 9).all fun i =>
        let num := (cellAt b row.toNat i).value
        if num = 0 then true
        else
          (List.range 9).all fun col =>
            if col < i + 1 then true
            else
              let checkNum := (cellAt b row.toNat col).value
              if checkNum = 0 then true
              else decide (num ≠ checkNum)

/-- `isLegalCol` (sudokuBoard.c lines 305–331): the same scan down a fixed
column.  (The C guard `return NULL;` evaluates to `false`.) -/
def isLegalCol (board : Option Board) (col : Int) : Bool :=
  match board with
  | none => false
  | some b =>
    if col < 0 ∨ 9 ≤ col then false
    else
      (List.range 9).all fun i =>
        let num := (cellAt b i col.toNat).value
        if num = 0 then true
        else
          (List.range 9).all fun row =>
            if row < i + 1 then true
            else
              let checkNum := (cellAt b row col.toNat).value
              if checkNum = 0 then true
              else decide (num ≠ checkNum)

/-- `isLegalSquare` (sudokuBoard.c lines 343–379), embedded exactly as written:
the box corner is `refRow = row - row%3`, `refCol = col - col%3`; the outer
loops run `i` from `refRow` and `j` from `refCol`, but `num` is read from
`getCell(row, col)` — the queried cell — on every iteration, and the inner
loops run `sRow` from `i` to `refRow+3` and `sCol` from `j` to `refCol+3`. -/
def isLegalSquare (board : Option Board) (row col : Int) : Bool :=
  match board with
  | none => false
  | some b =>
    if row < 0 ∨ 9 ≤ row ∨ col < 0 ∨ 9 ≤ col then false
    else
      let refRow := row.toNat - row.toNat % 3
      let refCol := col.toNat - col.toNat % 3
      (List.range 3).all fun di =>
        (List.range 3).all fun dj =>
          let num := (cellAt b row.toNat col.toNat).value
          if num = 0 then true
          else
            (List.range (3 - di)).all fun dr =>
              (List.range (3 - dj)).all fun dc =>
                let checkNum := (cellAt b (refRow + di + dr) (refCol + dj + dc)).value
                if checkNum = 0 then true
                else decide (num ≠ checkNum)

/-- `isLegalCell` (sudokuBoard.c lines 210–224), embedded exactly as written:
after the NULL/range guard it returns false only when
`isLegalCol || isLegalRow || isLegalSquare` is false — a disjunction. -/
def isLegalCell (board : Option Board) (row col : Int) : Bool :=
  match board with
  | none => false
  | some b =>
    if row < 0 ∨ 9 ≤ row ∨ col < 0 ∨ 9 ≤ col then false
    else
      if ¬(isLegalCol (some b) col ∨ isLegalRow (some b) row ∨
            isLegalSquare (some b) row col) then false
      else true

/-- `checkBoard` (sudokuBoard.c lines 232–259): false on NULL board; otherwise
all 9 rows and columns are checked, then the 9 squares referenced by their
upper-left cells at rows 0,3,6 and columns 0,3,6. -/
def checkBoard (board : Option Board) : Bool :=
  match board with
  | none => false
  | some b =>
    ((List.range 9).all fun index =>
        isLegalRow (some b) (Int.ofNat index) && isLegalCol (some b) (Int.ofNat index)) &&
    ((List.range 3).all fun r =>
        (List.range 3).all fun c =>
          isLegalSquare (some b) (Int.ofNat (3 * r)) (Int.ofNat (3 * c)))

/-- Modelled from the spec: `isCompleteBoard` is declared in the repository's
header and called by `boardTest.c`, but its definition is not among the source
files.  Spec §4.1 Completeness check: "True if and only if every one of the 81
cells holds a non-zero value; false if board absent or any cell is 0." -/
def isCompleteBoard (board : Option Board) : Bool :=
  match board with
  | none => false
  | some b =>
    (List.finRange 9).all fun i =>
      (List.finRange 9).all fun j => decide ((b i j).value ≠ 0)

/-- The error outcomes of `initSetBoard` (spec §4.1 Construct from clue string):
`invalidLength` when the clue string is not exactly 81 characters,
`invalidCharacter c` when it contains the non-digit character `c`.  In the C
these are the two `fprintf`+`return NULL` branches at lines 98–101 and
104–110. -/
inductive InitError where
  | invalidLength : InitError
  | invalidCharacter : Char → InitError
deriving DecidableEq, Repr

/-- `convertToWSStr` (sudokuBoard.c lines 183–199) on a present string: each
input character followed by a space.  (The C slip that writes the final NUL
through `strlen` of the not-yet-terminated buffer does not affect any
character the parser reads, and is not modelled.) -/
def convertToWSStr (str : List Char) : List Char :=
  str.flatMap fun c => [c, ' ']

/-- The `sscanf(&newClues[loc], "%d", &cellVal)` read used by `initSetBoard`:
skip leading spaces, then read the maximal run of decimal digits as a number.
(The clue string has already been checked to be all digits, so no sign or
matching failure can occur.) -/
def scanInt (s : List Char) : Int :=
  Int.ofNat <|
    ((s.dropWhile fun c => c = ' ').takeWhile Char.isDigit).foldl
      (fun acc c => 10 * acc + (c.toNat - Char.toNat '0')) 0

/-- `initSetBoard` (sudokuBoard.c lines 95–131): reject a string whose length
is not 81, then reject on the first non-digit character; otherwise start from
`initBoard` and, for each `(row, col)` with `loc = 2*(9*row+col)` into the
whitespace-interleaved string, set `clue = true` and `value = cellVal` when
the scanned value is positive. -/
def initSetBoard (clues : List Char) : Except InitError Board :=
  if clues.length ≠ 81 then
    .error .invalidLength
  else
    match clues.find? (fun c => !c.isDigit) with
    | some c => .error (.invalidCharacter c)
    | none =>
      let newClues := convertToWSStr clues
      .ok (fun row col =>
        let cellVal := scanInt (newClues.drop (2 * (9 * row.val + col.val)))
        if cellVal > 0 then { value := cellVal, clue := true }
        else initCell)

/-! ## Concrete boards used as inputs -/

/-- A board whose only non-zero cell is a 1 at `(0,0)`: a legal sudoku
position (no duplicated non-zero value anywhere). -/
def oneCellBoard : Board := fun i j =>
  if i = 0 ∧ j = 0 then { value := 1, clue := false } else initCell

/-- A board with the value 1 at both `(0,0)` and `(1,0)`: column 0 holds a
duplicated non-zero value, while row 0 does not. -/
def colDupBoard : Board := fun i j =>
  if (i = 0 ∧ j = 0) ∨ (i = 1 ∧ j = 0) then { value := 1, clue := false }
  else initCell

/-- A board whose cell `(0,0)` is a clue with value 5. -/
def clueBoard : Board := fun i j =>
  if i = 0 ∧ j = 0 then { value := 5, clue := true } else initCell

/-- The cell of `bd` at position `(a, b)` of the 3×3 box whose top-left cell
is `(0, 0)`. -/
def boxCell (bd : Board) (a b : Fin 3) : Cell :=
  bd ⟨a.val, by omega⟩ ⟨b.val, by omega⟩

/-- The cell of `bd` at position `(a, b)` of the 3×3 box whose top-left cell
is `(3*br, 3*bc)`. -/
def boxCellAt (bd : Board) (br bc a b : Fin 3) : Cell :=
  bd ⟨3 * br.val + a.val, by omega⟩ ⟨3 * bc.val + b.val, by omega⟩

/-! ## Helper lemmas -/

theorem cellAt_eq (b : Board) (r c : Nat) (hr : r < 9) (hc : c < 9) :
    cellAt b r c = b ⟨r, hr⟩ ⟨c, hc⟩ := by
  simp [cellAt, Nat.mod_eq_of_lt hr, Nat.mod_eq_of_lt hc]

/-! ## Claims -/

/-- C10: `initBoard()` produces a board in which every one of the 81 cells has
value 0 and `isClue = false`, and on such an all-zero board `checkBoard`
returns true (an empty board is legal). -/
theorem initBoard_empty_and_legal :
    (∀ i j : Fin 9, (initBoard i j).value = 0 ∧ (initBoard i j).clue = false) ∧
    checkBoard (some initBoard) = true := by
  refine ⟨fun i j => ⟨rfl, rfl⟩, ?_⟩
  decide

/-- C9 (modelled from the spec, `isCompleteBoard` has no definition among the
sources): `isCompleteBoard(board)` returns true if and only if every one of
the 81 cells holds a non-zero value, and returns false when the board is
absent or any cell holds 0. -/
theorem isCompleteBoard_correct (b : Board) :
    (isCompleteBoard (some b) = true ↔ ∀ i j : Fin 9, (b i j).value ≠ 0) ∧
    isCompleteBoard none = false := by
  constructor
  · simp [isCompleteBoard, List.all_eq_true, List.mem_finRange]
  · rfl

/-- C1 (refuting the claim as stated): `isLegalSquare` reads `num` from the
queried cell `(row, col)` instead of the outer-loop cell, so on a board whose
top-left box contains a single 1 at `(0,0)` — hence no two distinct cells of
the box with an equal non-zero value — it nevertheless returns false. -/
theorem isLegalSquare_failing :
    isLegalSquare (some oneCellBoard) 0 0 = false ∧
    (∀ a b c d : Fin 3, ¬(a = c ∧ b = d) →
      (boxCell oneCellBoard a b).value = (boxCell oneCellBoard c d).value →
      (boxCell oneCellBoard a b).value = 0) := by
  decide

/-- Closed instance of `isLegalSquare_failing` with its hypotheses discharged
at cells `(0,1)` and `(1,0)` of the box. -/
theorem isLegalSquare_failing_witness :
    isLegalSquare (some oneCellBoard) 0 0 = false ∧
    (boxCell oneCellBoard 0 1).value = 0 :=
  ⟨isLegalSquare_failing.1,
   isLegalSquare_failing.2 0 1 1 0 (by decide) (by decide)⟩

/-- C2 (refuting the claim as stated): on `oneCellBoard` every row and column
check passes and no 3×3 box contains two distinct cells with an equal
non-zero value, yet `checkBoard` returns false, because the `isLegalSquare`
it calls on the box corner `(0,0)` returns false there. -/
theorem checkBoard_failing :
    checkBoard (some oneCellBoard) = false ∧
    (∀ idx : Fin 9, isLegalRow (some oneCellBoard) idx.val = true ∧
      isLegalCol (some oneCellBoard) idx.val = true) ∧
    (∀ br bc a b c d : Fin 3, ¬(a = c ∧ b = d) →
      (boxCellAt oneCellBoard br bc a b).value =
        (boxCellAt oneCellBoard br bc c d).value →
      (boxCellAt oneCellBoard br bc a b).value = 0) := by
  refine ⟨by decide, by decide, by decide⟩

/-- Closed instance of `checkBoard_failing` with its hypotheses discharged at
box `(0,0)`, cells `(0,1)` and `(1,0)`. -/
theorem checkBoard_failing_witness :
    checkBoard (some oneCellBoard) = false ∧
    isLegalRow (some oneCellBoard) 0 = true ∧
    (boxCellAt oneCellBoard 0 0 0 1).value = 0 :=
  ⟨checkBoard_failing.1, (checkBoard_failing.2.1 0).1,
   checkBoard_failing.2.2 0 0 0 1 1 0 (by decide) (by decide)⟩

/-- C3 (refuting the claim as stated): `isLegalCell` combines the three checks
with a disjunction instead of a conjunction, so on a board whose column 0
holds two 1s it returns true at `(0,0)` although the column containing that
cell is not legal. -/
theorem isLegalCell_failing :
    isLegalCell (some colDupBoard) 0 0 = true ∧
    isLegalCol (some colDupBoard) 0 = false := by
  decide

/-- C7: a call `setCellVal(board,row,col,val)` with an absent board, a
coordinate outside `[0,9)`, or a value outside `[1,9]` performs no mutation
and signals no error: the board it leaves behind is exactly the one it was
given. -/
theorem setCellVal_rejects (b : Board) (row col val : Int)
    (h : row < 0 ∨ 9 ≤ row ∨ col < 0 ∨ 9 ≤ col ∨ val < 1 ∨ 9 < val) :
    setCellVal (some b) row col val = some b ∧
    setCellVal none row col val = none := by
  constructor
  · show (if row < 0 ∨ 9 ≤ row ∨ col < 0 ∨ 9 ≤ col ∨ val < 1 ∨ 9 < val
        then some b else _) = some b
    rw [if_pos h]
  · rfl

/-- Closed instance of `setCellVal_rejects`: value 0, value 10, row −1 and
col 9 all leave the board untouched. -/
theorem setCellVal_rejects_witness :
    setCellVal (some clueBoard) 0 0 0 = some clueBoard ∧
    setCellVal (some clueBoard) 0 0 10 = some clueBoard ∧
    setCellVal (some clueBoard) (-1) 0 5 = some clueBoard ∧
    setCellVal (some clueBoard) 0 9 5 = some clueBoard ∧
    setCellVal none 0 0 0 = none :=
  ⟨(setCellVal_rejects clueBoard 0 0 0 (by omega)).1,
   (setCellVal_rejects clueBoard 0 0 10 (by omega)).1,
   (setCellVal_rejects clueBoard (-1) 0 5 (by omega)).1,
   (setCellVal_rejects clueBoard 0 9 5 (by omega)).1,
   (setCellVal_rejects clueBoard 0 0 0 (by omega)).2⟩

/-- C8: with in-range coordinates and an in-range value, `setCellVal` writes
`val` into the `value` field of the addressed cell — also when that cell's
`clue` flag is true — leaves that cell's `clue` flag unchanged, and leaves
every other cell entirely unchanged. -/
theorem setCellVal_writes (b : Board) (row col val : Int)
    (hr : 0 ≤ row ∧ row < 9) (hc : 0 ≤ col ∧ col < 9) (hv : 1 ≤ val ∧ val ≤ 9) :
    ∃ b', setCellVal (some b) row col val = some b' ∧
      ∀ i j : Fin 9,
        (i.val = row.toNat ∧ j.val = col.toNat →
          (b' i j).value = val ∧ (b' i j).clue = (b i j).clue) ∧
        (¬(i.val = row.toNat ∧ j.val = col.toNat) → b' i j = b i j) := by
  have hguard : ¬(row < 0 ∨ 9 ≤ row ∨ col < 0 ∨ 9 ≤ col ∨ val < 1 ∨ 9 < val) := by
    omega
  refine ⟨fun i j =>
      if i.val = row.toNat ∧ j.val = col.toNat then
        { cellAt b row.toNat col.toNat with value := val }
      else b i j, ?_, ?_⟩
  · show (if row < 0 ∨ 9 ≤ row ∨ col < 0 ∨ 9 ≤ col ∨ val < 1 ∨ 9 < val
        then some b else _) = _
    rw [if_neg hguard]
  · intro i j
    constructor
    · rintro ⟨hi, hj⟩
      beta_reduce
      rw [if_pos ⟨hi, hj⟩]
      refine ⟨rfl, ?_⟩
      rw [cellAt_eq b row.toNat col.toNat (by omega) (by omega)]
      have hieq : (⟨row.toNat, by omega⟩ : Fin 9) = i := by
        apply Fin.ext; exact hi.symm
      have hjeq : (⟨col.toNat, by omega⟩ : Fin 9) = j := by
        apply Fin.ext; exact hj.symm
      rw [hieq, hjeq]
    · intro hne
      beta_reduce
      rw [if_neg hne]

/-- Closed instance of `setCellVal_writes` at the clue cell `(0,0)` of
`clueBoard` (whose `clue` flag is true) with value 3. -/
theorem setCellVal_writes_witness :
    ∃ b', setCellVal (some clueBoard) 0 0 3 = some b' ∧
      ∀ i j : Fin 9,
        (i.val = Int.toNat 0 ∧ j.val = Int.toNat 0 →
          (b' i j).value = 3 ∧ (b' i j).clue = (clueBoard i j).clue) ∧
        (¬(i.val = Int.toNat 0 ∧ j.val = Int.toNat 0) → b' i j = clueBoard i j) :=
  setCellVal_writes clueBoard 0 0 3 (by omega) (by omega) (by omega)

/-- C4: `initSetBoard` fails with `invalidLength` whenever the string's length
differs from 81 regardless of its content (the length check runs first), and
on an 81-character string containing a non-digit it fails with
`invalidCharacter` carrying the (first) offending character. -/
theorem initSetBoard_errors (s : List Char) :
    (s.length ≠ 81 → initSetBoard s = Except.error InitError.invalidLength) ∧
    (s.length = 81 → ∀ c ∈ s, ¬ c.isDigit →
      ∃ d, ¬ d.isDigit ∧ d ∈ s ∧
        initSetBoard s = Except.error (InitError.invalidCharacter d)) := by
  constructor
  · intro hlen
    simp [initSetBoard, hlen]
  · intro hlen c hc hcd
    have hsome : (s.find? (fun x => !x.isDigit)).isSome := by
      rw [List.find?_isSome]
      exact ⟨c, hc, by simp [hcd]⟩
    obtain ⟨d, hd⟩ := Option.isSome_iff_exists.mp hsome
    refine ⟨d, ?_, List.mem_of_find?_eq_some hd, ?_⟩
    · have := List.find?_some hd
      simpa using this
    · simp [initSetBoard, hlen, hd]

/-- Closed instance of `initSetBoard_errors`: an 80-character string is
rejected as `invalidLength`, and an 81-character string ending in `x` is
rejected as `invalidCharacter`. -/
theorem initSetBoard_errors_witness :
    initSetBoard (List.replicate 80 '0') = Except.error InitError.invalidLength ∧
    ∃ d, ¬ d.isDigit ∧ d ∈ List.replicate 80 '0' ++ ['x'] ∧
      initSetBoard (List.replicate 80 '0' ++ ['x']) =
        Except.error (InitError.invalidCharacter d) :=
  ⟨(initSetBoard_errors (List.replicate 80 '0')).1 (by decide),
   (initSetBoard_errors (List.replicate 80 '0' ++ ['x'])).2 (by decide) 'x'
     (by decide) (by decide)⟩

theorem isLegalRow_iff (b : Board) (idx : Int) (h0 : 0 ≤ idx) (h9 : idx < 9) :
    isLegalRow (some b) idx = true ↔
      ∀ i j : Fin 9, i ≠ j →
        (b ⟨idx.toNat, by omega⟩ i).value = (b ⟨idx.toNat, by omega⟩ j).value →
        (b ⟨idx.toNat, by omega⟩ i).value = 0 := by
  have hrt : idx.toNat < 9 := by omega
  have hv : ∀ (n : Nat) (hn : n < 9),
      cellAt b idx.toNat n = b ⟨idx.toNat, hrt⟩ ⟨n, hn⟩ :=
    fun n hn => cellAt_eq b idx.toNat n hrt hn
  simp only [isLegalRow]
  rw [if_neg (by omega)]
  simp only [List.all_eq_true, List.mem_range]
  constructor
  · intro hscan i j hne heq
    by_cases hz : (b ⟨idx.toNat, hrt⟩ i).value = 0
    · exact hz
    have hvne : i.val ≠ j.val := fun h => hne (Fin.ext h)
    rcases Nat.lt_or_ge i.val j.val with hij | hge
    · have h1 := hscan i.val i.isLt
      rw [hv i.val i.isLt] at h1
      simp only [Fin.eta] at h1
      rw [if_neg hz] at h1
      rw [List.all_eq_true] at h1
      have h2 := h1 j.val (by rw [List.mem_range]; exact j.isLt)
      rw [if_neg (by omega)] at h2
      rw [hv j.val j.isLt] at h2
      simp only [Fin.eta] at h2
      by_cases hzj : (b ⟨idx.toNat, hrt⟩ j).value = 0
      · exact heq.trans hzj
      · rw [if_neg hzj] at h2
        exact absurd heq (of_decide_eq_true h2)
    · have hjlt : j.val < i.val := by omega
      have h1 := hscan j.val j.isLt
      rw [hv j.val j.isLt] at h1
      simp only [Fin.eta] at h1
      by_cases hzj : (b ⟨idx.toNat, hrt⟩ j).value = 0
      · exact heq.trans hzj
      rw [if_neg hzj] at h1
      rw [List.all_eq_true] at h1
      have h2 := h1 i.val (by rw [List.mem_range]; exact i.isLt)
      rw [if_neg (by omega)] at h2
      rw [hv i.val i.isLt] at h2
      simp only [Fin.eta] at h2
      rw [if_neg hz] at h2
      exact absurd heq.symm (of_decide_eq_true h2)
  · intro hp x hx
    rw [hv x hx]
    by_cases hz : (b ⟨idx.toNat, hrt⟩ ⟨x, hx⟩).value = 0
    · rw [if_pos hz]
    · rw [if_neg hz]
      rw [List.all_eq_true]
      intro y hy
      rw [List.mem_range] at hy
      by_cases hxy : y < x + 1
      · rw [if_pos hxy]
      · rw [if_neg hxy]
        rw [hv y hy]
        by_cases hzy : (b ⟨idx.toNat, hrt⟩ ⟨y, hy⟩).value = 0
        · rw [if_pos hzy]
        · rw [if_neg hzy]
          rw [decide_eq_true_eq]
          intro hcontra
          exact hz (hp ⟨x, hx⟩ ⟨y, hy⟩ (Fin.ne_of_val_ne (show x ≠ y by omega)) hcontra)

theorem isLegalCol_iff (b : Board) (idx : Int) (h0 : 0 ≤ idx) (h9 : idx < 9) :
    isLegalCol (some b) idx = true ↔
      ∀ i j : Fin 9, i ≠ j →
        (b i ⟨idx.toNat, by omega⟩).value = (b j ⟨idx.toNat, by omega⟩).value →
        (b i ⟨idx.toNat, by omega⟩).value = 0 := by
  have hrt : idx.toNat < 9 := by omega
  have hv : ∀ (n : Nat) (hn : n < 9),
      cellAt b n idx.toNat = b ⟨n, hn⟩ ⟨idx.toNat, hrt⟩ :=
    fun n hn => cellAt_eq b n idx.toNat hn hrt
  simp only [isLegalCol]
  rw [if_neg (by omega)]
  simp only [List.all_eq_true, List.mem_range]
  constructor
  · intro hscan i j hne heq
    by_cases hz : (b i ⟨idx.toNat, hrt⟩).value = 0
    · exact hz
    have hvne : i.val ≠ j.val := fun h => hne (Fin.ext h)
    rcases Nat.lt_or_ge i.val j.val with hij | hge
    · have h1 := hscan i.val i.isLt
      rw [hv i.val i.isLt] at h1
      simp only [Fin.eta] at h1
      rw [if_neg hz] at h1
      rw [List.all_eq_true] at h1
      have h2 := h1 j.val (by rw [List.mem_range]; exact j.isLt)
      rw [if_neg (by omega)] at h2
      rw [hv j.val j.isLt] at h2
      simp only [Fin.eta] at h2
      by_cases hzj : (b j ⟨idx.toNat, hrt⟩).value = 0
      · exact heq.trans hzj
      · rw [if_neg hzj] at h2
        exact absurd heq (of_decide_eq_true h2)
    · have hjlt : j.val < i.val := by omega
      have h1 := hscan j.val j.isLt
      rw [hv j.val j.isLt] at h1
      simp only [Fin.eta] at h1
      by_cases hzj : (b j ⟨idx.toNat, hrt⟩).value = 0
      · exact heq.trans hzj
      rw [if_neg hzj] at h1
      rw [List.all_eq_true] at h1
      have h2 := h1 i.val (by rw [List.mem_range]; exact i.isLt)
      rw [if_neg (by omega)] at h2
      rw [hv i.val i.isLt] at h2
      simp only [Fin.eta] at h2
      rw [if_neg hz] at h2
      exact absurd heq.symm (of_decide_eq_true h2)
  · intro hp x hx
    rw [hv x hx]
    by_cases hz : (b ⟨x, hx⟩ ⟨idx.toNat, hrt⟩).value = 0
    · rw [if_pos hz]
    · rw [if_neg hz]
      rw [List.all_eq_true]
      intro y hy
      rw [List.mem_range] at hy
      by_cases hxy : y < x + 1
      · rw [if_pos hxy]
      · rw [if_neg hxy]
        rw [hv y hy]
        by_cases hzy : (b ⟨y, hy⟩ ⟨idx.toNat, hrt⟩).value = 0
        · rw [if_pos hzy]
        · rw [if_neg hzy]
          rw [decide_eq_true_eq]
          intro hcontra
          exact hz (hp ⟨x, hx⟩ ⟨y, hy⟩ (Fin.ne_of_val_ne (show x ≠ y by omega)) hcontra)

/-- C6: for a present board and an index in range, `isLegalRow` is true iff no
two distinct positions of that row hold an equal non-zero value, and
`isLegalCol` is the symmetric statement for a column; both are false when the
board is absent or the index is out of range. -/
theorem isLegalRowCol_correct (b : Board) (idx : Int) :
    (∀ h : 0 ≤ idx ∧ idx < 9,
      (isLegalRow (some b) idx = true ↔
        ∀ i j : Fin 9, i ≠ j →
          (b ⟨idx.toNat, by omega⟩ i).value = (b ⟨idx.toNat, by omega⟩ j).value →
          (b ⟨idx.toNat, by omega⟩ i).value = 0) ∧
      (isLegalCol (some b) idx = true ↔
        ∀ i j : Fin 9, i ≠ j →
          (b i ⟨idx.toNat, by omega⟩).value = (b j ⟨idx.toNat, by omega⟩).value →
          (b i ⟨idx.toNat, by omega⟩).value = 0)) ∧
    ((idx < 0 ∨ 9 ≤ idx) →
      isLegalRow (some b) idx = false ∧ isLegalCol (some b) idx = false) ∧
    isLegalRow none idx = false ∧ isLegalCol none idx = false := by
  refine ⟨fun h => ⟨isLegalRow_iff b idx h.1 h.2, isLegalCol_iff b idx h.1 h.2⟩,
    fun hout => ⟨?_, ?_⟩, rfl, rfl⟩
  · simp only [isLegalRow]
    rw [if_pos (by omega)]
  · simp only [isLegalCol]
    rw [if_pos (by omega)]

/-- Closed instance of `isLegalRowCol_correct` at `colDupBoard`: the
characterization at index 0 (whose column scan fails on the duplicated 1s)
and the out-of-range rejection at index −1. -/
theorem isLegalRowCol_correct_witness :
    ((isLegalRow (some colDupBoard) 0 = true ↔
        ∀ i j : Fin 9, i ≠ j →
          (colDupBoard ⟨Int.toNat 0, by omega⟩ i).value =
            (colDupBoard ⟨Int.toNat 0, by omega⟩ j).value →
          (colDupBoard ⟨Int.toNat 0, by omega⟩ i).value = 0) ∧
      (isLegalCol (some colDupBoard) 0 = true ↔
        ∀ i j : Fin 9, i ≠ j →
          (colDupBoard i ⟨Int.toNat 0, by omega⟩).value =
            (colDupBoard j ⟨Int.toNat 0, by omega⟩).value →
          (colDupBoard i ⟨Int.toNat 0, by omega⟩).value = 0)) ∧
    (isLegalRow (some colDupBoard) (-1) = false ∧
      isLegalCol (some colDupBoard) (-1) = false) :=
  ⟨(isLegalRowCol_correct colDupBoard 0).1 (by omega),
   (isLegalRowCol_correct colDupBoard (-1)).2.1 (by omega)⟩

theorem convertToWSStr_cons (c : Char) (t : List Char) :
    convertToWSStr (c :: t) = c :: ' ' :: convertToWSStr t := by
  simp [convertToWSStr]

theorem convertToWSStr_drop (l : List Char) (k : Nat) :
    (convertToWSStr l).drop (2 * k) = convertToWSStr (l.drop k) := by
  induction l generalizing k with
  | nil => simp [convertToWSStr]
  | cons c t ih =>
    cases k with
    | zero => simp
    | succ k =>
      rw [convertToWSStr_cons, show 2 * (k + 1) = 2 * k + 1 + 1 by ring,
        List.drop_succ_cons, List.drop_succ_cons, List.drop_succ_cons]
      exact ih k

theorem scanInt_digit (c : Char) (rest : List Char) (hc : c.isDigit) :
    scanInt (c :: ' ' :: rest) = Int.ofNat (c.toNat - Char.toNat '0') := by
  have hcs : ¬(c = ' ') := by
    intro h
    subst h
    exact absurd hc (by decide)
  have hsp : (' ' : Char).isDigit = false := by decide
  simp [scanInt, List.dropWhile_cons, List.takeWhile_cons, hcs, hc, hsp]

/-- C5: on a string of exactly 81 decimal digits `initSetBoard` succeeds, and
the cell `getCell(row, col)` returns has the digit of the string at linear
index `row*9+col` as its value: a `0` digit leaves the cell at value 0 with
`clue = false`, a non-zero digit sets the value to the digit with
`clue = true`. -/
theorem initSetBoard_roundtrip (clues : List Char)
    (hlen : clues.length = 81) (hdig : ∀ c ∈ clues, c.isDigit) :
    ∃ b, initSetBoard clues = Except.ok b ∧
      ∀ r c : Fin 9,
        getCell (r.val : Int) (c.val : Int) (some b) =
          some (
            let d : Int :=
              Int.ofNat ((clues.getD (9 * r.val + c.val) '0').toNat - Char.toNat '0')
            if d > 0 then { value := d, clue := true }
            else { value := 0, clue := false }) := by
  have hfind : clues.find? (fun x => !x.isDigit) = none := by
    rw [List.find?_eq_none]
    intro x hx
    simp [hdig x hx]
  refine ⟨fun row col =>
      let cellVal := scanInt ((convertToWSStr clues).drop (2 * (9 * row.val + col.val)))
      if cellVal > 0 then { value := cellVal, clue := true } else initCell,
    ?_, ?_⟩
  · simp [initSetBoard, hlen, hfind]
  · intro r c
    have hr9 := r.isLt
    have hc9 := c.isLt
    have hkl : 9 * r.val + c.val < clues.length := by omega
    have hdigit : (clues.getD (9 * r.val + c.val) '0').isDigit := by
      rw [List.getD_eq_getElem clues '0' hkl]
      exact hdig _ (List.getElem_mem hkl)
    simp only [getCell]
    rw [if_neg (by omega)]
    rw [Int.toNat_natCast, Int.toNat_natCast]
    rw [cellAt_eq _ _ _ (by omega) (by omega)]
    simp only [Fin.eta]
    rw [convertToWSStr_drop]
    rw [List.drop_eq_getElem_cons hkl, convertToWSStr_cons]
    rw [← List.getD_eq_getElem clues '0' hkl]
    rw [scanInt_digit _ _ hdigit]
    rfl

/-- An 81-digit clue string: a 5 followed by 80 zeros. -/
def sampleClues : List Char := '5' :: List.replicate 80 '0'

/-- Closed instance of `initSetBoard_roundtrip` at `sampleClues`. -/
theorem initSetBoard_roundtrip_witness :
    ∃ b, initSetBoard sampleClues = Except.ok b ∧
      ∀ r c : Fin 9,
        getCell (r.val : Int) (c.val : Int) (some b) =
          some (
            let d : Int :=
              Int.ofNat ((sampleClues.getD (9 * r.val + c.val) '0').toNat - Char.toNat '0')
            if d > 0 then { value := d, clue := true }
            else { value := 0, clue := false }) :=
  initSetBoard_roundtrip sampleClues (by decide) (by decide)
